import Mathlib

/-!
Verification of the inventory-dashboard server core (src/server/src/index.ts,
src/server/src/reports.ts).  Timestamps and durations are modelled as `Int`
(epoch milliseconds), JavaScript numbers as `ℚ` (every value the verified
claims touch is an exact decimal, where JS float arithmetic agrees with
rational arithmetic), JS `Map`/object key order as association lists, and the
remote SP-API as an explicit environment of responses.
-/

/-- JS `String.prototype.includes` on character lists:
`pat` occurs as a contiguous substring. -/
def containsSub (pat : List Char) : List Char → Bool
  | [] => pat.isEmpty
  | c :: cs => pat.isPrefixOf (c :: cs) || containsSub pat cs

/-- JS `s.includes(pat)`. -/
def jsIncludes (s pat : String) : Bool :=
  containsSub pat.toList s.toList

/-- JS truthiness of a possibly-undefined string: defined and non-empty. -/
def optTruthy : Option String → Bool
  | some s => !(s == "")
  | none => false

/-- JS `a || b || ... || ""` over possibly-undefined strings:
first defined non-empty string, defaulting to the empty string. -/
def firstTruthyStr : List (Option String) → String
  | [] => ""
  | o :: rest =>
    match o with
    | some s => if s = "" then firstTruthyStr rest else s
    | none => firstTruthyStr rest

/-- JS `a || b` where `a`, `b` are strings (empty string is falsy). -/
def jsOrS (a b : String) : String :=
  if a = "" then b else a

/-- JS `a || b` where `a`, `b` are numbers (`parseNumber` never yields NaN,
so falsy means exactly zero). -/
def jsOrQ (a b : ℚ) : ℚ :=
  if a = 0 then b else a

/-- JS `a || b` where `a`, `b` are possibly-undefined strings, as passed to
`parseNumber(row["available"] || row["available-quantity"])`. -/
def jsOrOpt (a b : Option String) : Option String :=
  match a with
  | some s => if s = "" then b else some s
  | none => b

/-- `value.replace(/[^0-9.-]/g, "")`: keep only digits, `.` and `-`. -/
def cleanNumeric (s : String) : String :=
  String.mk (s.toList.filter fun c => c.isDigit || c == '.' || c == '-')

/-- Numeric value of a digit string (most significant first). -/
def digitsVal (ds : List Char) : Nat :=
  ds.foldl (fun n c => 10 * n + (c.toNat - 48)) 0

/-- Digit layout of a JS number parse: sign, decimal digits read as a
natural number, and the number of fraction digits.  `none` models NaN.
Restricted to strings over the alphabet `[0-9.-]` (the output alphabet of
`cleanNumeric`); `Number("")` is `0`; an optional leading minus, at most one
dot and at least one digit are required, any further `-` is NaN. -/
def jsNumParts (s : String) : Option (Bool × Nat × Nat) :=
  let cs := s.toList
  if cs.isEmpty then some (false, 0, 0)
  else
    let neg : Bool := cs.headD ' ' == '-'
    let t := if neg then cs.tail else cs
    if t.contains '-' then none
    else if 1 < t.count '.' then none
    else if (t.filter Char.isDigit).isEmpty then none
    else
      let intPart := t.takeWhile (fun c => c != '.')
      let fracPart := (t.dropWhile (fun c => c != '.')).drop 1
      some (neg, digitsVal (intPart ++ fracPart), fracPart.length)

/-- JS `Number()` on the output of `cleanNumeric`: the rational value of the
digit layout. -/
def jsNumOfCleaned (s : String) : Option ℚ :=
  (jsNumParts s).map fun p => (if p.1 then -(p.2.1 : ℚ) else (p.2.1 : ℚ)) / ((10 : ℚ) ^ p.2.2)

/-- `parseNumber` from reports.ts: falsy input is 0, otherwise strip every
character that is not a digit, dot or minus and apply `Number`,
with non-finite results mapped to 0. -/
def parseNumber : Option String → ℚ
  | none => 0
  | some v =>
    if v = "" then 0
    else (jsNumOfCleaned (cleanNumeric v)).getD 0

/-- `parsePercent` from reports.ts. -/
def parsePercent : Option String → ℚ
  | none => 0
  | some v =>
    if v = "" then 0
    else if jsIncludes v "%" then parseNumber (some v) / 100
    else if 1 < parseNumber (some v) then parseNumber (some v) / 100
    else parseNumber (some v)

/-- One parsed report row: a JS object, i.e. an insertion-ordered map from
normalized header names to trimmed cell strings. -/
abbrev Row := List (String × String)

/-- JS `s.startsWith(pre)`. -/
def strStartsWith (s pre : String) : Bool :=
  pre.toList.isPrefixOf s.toList

/-- `computeAge90Plus` from reports.ts: iterate the row entries, skip keys
not starting with `inv-age-`, skip keys containing one of the four young
bucket names, and add up the parsed values of the rest. -/
def computeAge90Plus (row : Row) : ℚ :=
  row.foldl
    (fun total kv =>
      if !(strStartsWith kv.1 "inv-age-") then total
      else if jsIncludes kv.1 "0-to-90" || jsIncludes kv.1 "0-to-30" ||
          jsIncludes kv.1 "31-to-60" || jsIncludes kv.1 "61-to-90" then total
      else total + parseNumber (some kv.2))
    0

/-- First-match lookup in an association list (JS object / `Map` read). -/
def lookupAssoc {α : Type} : List (String × α) → String → Option α
  | [], _ => none
  | (k, v) :: rest, key => if k = key then some v else lookupAssoc rest key

/-- JS `Map.set` / object assignment: replace in place if the key exists
(keeping its position), else append. -/
def setAssoc {α : Type} : List (String × α) → String → α → List (String × α)
  | [], key, v => [(key, v)]
  | (k, w) :: rest, key, v =>
    if k = key then (k, v) :: rest else (k, w) :: setAssoc rest key v

/-- JS `Map.delete`: remove the entry with the given key. -/
def deleteAssoc {α : Type} : List (String × α) → String → List (String × α)
  | [], _ => []
  | (k, w) :: rest, key =>
    if k = key then rest else (k, w) :: deleteAssoc rest key

/-- True for characters collapsed by `normalizeHeader`
(the regex `/[\s_]+/`). -/
def isSepChar (c : Char) : Bool :=
  c == '_' || c.isWhitespace

/-- Replace every run of whitespace / underscores by a single hyphen.
The Bool argument tracks whether the previous character was in a run. -/
def collapseSeps : Bool → List Char → List Char
  | _, [] => []
  | inRun, c :: rest =>
    if isSepChar c then
      (if inRun then [] else ['-']) ++ collapseSeps true rest
    else
      c :: collapseSeps false rest

/-- `normalizeHeader` from reports.ts:
`header.trim().toLowerCase().replace(/[\s_]+/g, "-")`. -/
def normalizeHeader (header : String) : String :=
  String.mk (collapseSeps false (header.trim.toLower).toList)

/-- Strip one trailing carriage return; `split(/\r?\n/)` is modelled as
splitting on newline then stripping one trailing `\r` per piece. -/
def stripCR (l : String) : String :=
  if l.endsWith "\r" then l.dropRight 1 else l

/-- `parseTabDelimited` from reports.ts: drop blank lines, first line is the
header (normalized), each later line becomes a row object; missing trailing
cells default to the empty string and every cell is trimmed. -/
def parseTabDelimited (content : String) : List Row :=
  let lines := ((content.splitOn "\n").map stripCR).filter fun l => 0 < l.trim.length
  match lines with
  | [] => []
  | headerLine :: rest =>
    let headers := (headerLine.splitOn "\t").map normalizeHeader
    rest.map fun line =>
      let values := line.splitOn "\t"
      headers.enum.foldl
        (fun row iv => setAssoc row iv.2 (((values.get? iv.1).getD "").trim))
        []

/-- `PlanningItem` from index.ts (field `age90plusUnits` keeps the source
spelling). -/
structure PlanningItem where
  sku : String
  title : String
  available : ℚ
  inbound : ℚ
  reserved : ℚ
  sales7d : ℚ
  sellThrough : ℚ
  age90plusUnits : ℚ
  estimatedLtsf : ℚ
  estimatedStorage : ℚ
deriving DecidableEq

/-- The sku fallback chain `row["sku"] || row["seller-sku"] ||
row["seller-sku-sku"] || ""` shared by both parse loops. -/
def rowSku (row : Row) : String :=
  firstTruthyStr [lookupAssoc row "sku", lookupAssoc row "seller-sku", lookupAssoc row "seller-sku-sku"]

/-- The field extraction performed for one row by the (verbatim twice
repeated) parse loop of `cachePlanningReport` and `refreshPlanningReport`. -/
def planningFieldsOfRow (row : Row) : PlanningItem :=
  { sku := rowSku row
    title := firstTruthyStr [lookupAssoc row "product-name", lookupAssoc row "item-name"]
    available := parseNumber (jsOrOpt (lookupAssoc row "available") (lookupAssoc row "available-quantity"))
    inbound :=
      parseNumber (lookupAssoc row "inbound-working-quantity") +
      parseNumber (lookupAssoc row "inbound-shipped-quantity") +
      parseNumber (lookupAssoc row "inbound-receiving-quantity") +
      parseNumber (lookupAssoc row "inbound-quantity")
    reserved := parseNumber (jsOrOpt (lookupAssoc row "reserved-quantity") (lookupAssoc row "total-reserved-quantity"))
    sales7d := jsOrQ (parseNumber (lookupAssoc row "units-shipped-t7")) (parseNumber (lookupAssoc row "sales-shipped-last-7-days"))
    sellThrough := parsePercent (lookupAssoc row "sell-through")
    age90plusUnits := computeAge90Plus row
    estimatedLtsf :=
      parseNumber (lookupAssoc row "estimated-ltsf-next-charge") +
      parseNumber (lookupAssoc row "projected-ltsf-11-mo")
    estimatedStorage := parseNumber (lookupAssoc row "estimated-storage-cost-next-month") }

/-- One iteration of the parse loop: rows with an empty sku are skipped,
otherwise the aging-risk accumulator grows by `estimatedLtsf +
estimatedStorage` and the item map is overwritten at the sku key. -/
def buildPlanningStep (acc : List (String × PlanningItem) × ℚ) (row : Row) :
    List (String × PlanningItem) × ℚ :=
  if rowSku row = "" then acc
  else
    let item := planningFieldsOfRow row
    (setAssoc acc.1 (rowSku row) item, acc.2 + (item.estimatedLtsf + item.estimatedStorage))

/-- `rows.forEach(...)` of the parse loop: item map plus aging-risk total. -/
def buildPlanning (rows : List Row) : List (String × PlanningItem) × ℚ :=
  rows.foldl buildPlanningStep ([], 0)

/-- `PlanningCache` from index.ts. -/
structure PlanningCache where
  fetchedAt : Int
  items : List (String × PlanningItem)
  agingRisk : ℚ
deriving DecidableEq

/-- Parse a downloaded document and assemble the cache entry stamped with the
current time (the tail of `cachePlanningReport` and of the verbatim copy
inside `refreshPlanningReport`). -/
def buildPlanningCache (content : String) (now : Int) : PlanningCache :=
  let rows := parseTabDelimited content
  let built := buildPlanning rows
  { fetchedAt := now, items := built.1, agingRisk := built.2 }

/-- The four marketplace codes of `REGION_CONFIG`. -/
inductive StoreKey
  | US
  | CA
  | UK
  | AU
deriving DecidableEq

/-- `REPORT_CACHE_TTL_MS` (6 hours). -/
def REPORT_CACHE_TTL_MS : Int := 6 * 60 * 60 * 1000

/-- `SHIPMENTS_CACHE_TTL_MS` (5 minutes). -/
def SHIPMENTS_CACHE_TTL_MS : Int := 5 * 60 * 1000

/-- `REPORT_COOLDOWN_MS` (15 minutes). -/
def REPORT_COOLDOWN_MS : Int := 15 * 60 * 1000

/-- A `Map<StoreKey, α>`: store-keyed partial map. -/
def StoreMap (α : Type) := StoreKey → Option α

/-- `Map.set` on a store-keyed map (unconditional overwrite). -/
def setStore {α : Type} (m : StoreMap α) (store : StoreKey) (v : α) : StoreMap α :=
  fun s => if s = store then some v else m s

/-- `getPlanningCache` from index.ts: absent, or stale when strictly older
than the TTL; the stored entry is not modified. -/
def getPlanningCache (m : StoreMap PlanningCache) (store : StoreKey) (now : Int) :
    Option PlanningCache :=
  match m store with
  | none => none
  | some cached =>
    if now - cached.fetchedAt > REPORT_CACHE_TTL_MS then none else some cached

/-- `StoreShipment` from types.ts. -/
structure Shipment where
  id : String
  status : String
  eta : String
  units : ℚ
deriving DecidableEq

/-- One `shipmentsCache` entry from index.ts. -/
structure ShipmentsCacheEntry where
  fetchedAt : Int
  shipments : List Shipment
deriving DecidableEq

/-- `getShipmentsCache` from index.ts. -/
def getShipmentsCache (m : StoreMap ShipmentsCacheEntry) (store : StoreKey) (now : Int) :
    Option ShipmentsCacheEntry :=
  match m store with
  | none => none
  | some cached =>
    if now - cached.fetchedAt > SHIPMENTS_CACHE_TTL_MS then none else some cached

/-- `ReviewStats` from types.ts. -/
structure ReviewStats where
  today : ℚ
  last7Days : ℚ
  last30Days : ℚ
  lastRunAt : Option String
deriving DecidableEq

/-- `StoreInventoryItem` from types.ts (one element of the live inventory
list after the per-summary mapping). -/
structure LiveItem where
  sku : String
  title : String
  onHand : ℚ
  reserved : ℚ
  inbound : ℚ
  sales7d : ℚ
  age90plus : Bool
  stranded : ℚ
  suppressed : ℚ
  sellThrough : ℚ
  margin : ℚ
deriving DecidableEq

/-- `StoreData` from types.ts. -/
structure StoreData where
  code : StoreKey
  name : String
  marketplace : String
  currency : String
  ipiScore : ℚ
  storageUtilization : ℚ
  agingRisk : ℚ
  strandedUnits : ℚ
  suppressedUnits : ℚ
  inventory : List LiveItem
  shipments : List Shipment
  warnings : List String
  reviewStats : ReviewStats
deriving DecidableEq

/-- Display name ternary chain of the `fallback` literal. -/
def storeName : StoreKey → String
  | StoreKey.US => "United States"
  | StoreKey.UK => "United Kingdom"
  | StoreKey.CA => "Canada"
  | StoreKey.AU => "Australia"

/-- The literal marketplace code string of a store key. -/
def storeCode : StoreKey → String
  | StoreKey.US => "US"
  | StoreKey.UK => "UK"
  | StoreKey.CA => "CA"
  | StoreKey.AU => "AU"

/-- Currency ternary chain of the `fallback` literal. -/
def storeCurrency : StoreKey → String
  | StoreKey.US => "USD"
  | StoreKey.UK => "GBP"
  | StoreKey.CA => "CAD"
  | StoreKey.AU => "AUD"

/-- The `fallback` StoreData literal built at the top of
`fetchInventorySnapshot`. -/
def fallbackStore (store : StoreKey) (rs : ReviewStats) : StoreData :=
  { code := store
    name := storeName store
    marketplace := "Amazon " ++ storeCode store
    currency := storeCurrency store
    ipiScore := 0
    storageUtilization := 0
    agingRisk := 0
    strandedUnits := 0
    suppressedUnits := 0
    inventory := []
    shipments := []
    warnings := []
    reviewStats := rs }

/-- The object spread applied to a live item when its sku matches a planning
record (index.ts lines 196-205). -/
def applyPlanning (item : LiveItem) (p : PlanningItem) : LiveItem :=
  { item with
    title := jsOrS p.title item.title
    onHand := if item.onHand = 0 then p.available else item.onHand
    reserved := if item.reserved = 0 then p.reserved else item.reserved
    inbound := if item.inbound = 0 then p.inbound else item.inbound
    sales7d := p.sales7d
    age90plus := decide (0 < p.age90plusUnits)
    sellThrough := p.sellThrough }

/-- The synthetic item pushed for a planning record no live sku matched
(index.ts lines 210-224). -/
def syntheticOfPlanning (p : PlanningItem) : LiveItem :=
  { sku := p.sku
    title := jsOrS p.title p.sku
    onHand := p.available
    reserved := p.reserved
    inbound := p.inbound
    sales7d := p.sales7d
    age90plus := decide (0 < p.age90plusUnits)
    stranded := 0
    suppressed := 0
    sellThrough := p.sellThrough
    margin := 0 }

/-- The `inventory.map(...)` pass over live items: the working copy `merged`
of the planning map is consulted and each matched record is deleted from it.
Returns the mapped list and the remaining working copy. -/
def mergePhase1 : List (String × PlanningItem) → List LiveItem →
    List LiveItem × List (String × PlanningItem)
  | m, [] => ([], m)
  | m, item :: rest =>
    match lookupAssoc m item.sku with
    | some p =>
      let r := mergePhase1 (deleteAssoc m item.sku) rest
      (applyPlanning item p :: r.1, r.2)
    | none =>
      let r := mergePhase1 m rest
      (item :: r.1, r.2)

/-- The planning merge of `fetchInventorySnapshot` (index.ts lines 190-224):
map live items through the working copy, then append a synthetic item for
every planning record left in it. -/
def mergeWithPlanning (inventory : List LiveItem) (planning : PlanningCache) : List LiveItem :=
  let r := mergePhase1 planning.items inventory
  r.1 ++ r.2.map fun kv => syntheticOfPlanning kv.2

/-- Result of one remote call: a value, or a thrown transport error
(timeout, 5xx, ...). -/
inductive FetchResult (α : Type)
  | ok (val : α)
  | fail

/-- `fetchInboundShipments` from index.ts.  The raw JSON shipment mapping
(field fallback chains and `formatEta`) is external to the verified claims,
so the response carries already-mapped shipments; the function itself never
throws (it catches internally and returns the empty list). -/
def fetchInboundShipments (hasCreds : Bool) (sc : StoreMap ShipmentsCacheEntry)
    (store : StoreKey) (now : Int) (resp : FetchResult (List Shipment)) :
    List Shipment × StoreMap ShipmentsCacheEntry :=
  match getShipmentsCache sc store now with
  | some cached => (cached.shipments, sc)
  | none =>
    if hasCreds then
      match resp with
      | FetchResult.fail => ([], sc)
      | FetchResult.ok shipments =>
        (shipments, setStore sc store { fetchedAt := now, shipments := shipments })
    else ([], sc)

/-- `fetchInventorySnapshot` from index.ts.  The per-summary mapping (raw
JSON field fallback chains, lines 154-186) is applied upstream of the
`liveResp` argument: a thrown live call is `FetchResult.fail`, a malformed
200 response yields `FetchResult.ok []` through the `?? []` defaults.
Returns the served StoreData and the shipments cache after the call. -/
def fetchInventorySnapshot (store : StoreKey) (hasCreds : Bool) (rs : ReviewStats)
    (liveResp : FetchResult (List LiveItem)) (shipResp : FetchResult (List Shipment))
    (pc : StoreMap PlanningCache) (sc : StoreMap ShipmentsCacheEntry) (now : Int) :
    StoreData × StoreMap ShipmentsCacheEntry :=
  if hasCreds then
    match liveResp with
    | FetchResult.fail => (fallbackStore store rs, sc)
    | FetchResult.ok inventory0 =>
      let shipRes := fetchInboundShipments hasCreds sc store now shipResp
      match getPlanningCache pc store now with
      | some planning =>
        ({ fallbackStore store rs with
            inventory := mergeWithPlanning inventory0 planning
            shipments := shipRes.1
            agingRisk := planning.agingRisk }, shipRes.2)
      | none =>
        ({ fallbackStore store rs with
            inventory := inventory0
            shipments := shipRes.1 }, shipRes.2)
  else (fallbackStore store rs, sc)

/-- The server's mutable module-level maps touched by the orchestrator. -/
structure ServerState where
  planningCache : StoreMap PlanningCache
  reportCooldownUntil : StoreMap Int

/-- Tags for the upstream SP-API calls the orchestrator can issue. -/
inductive UpCall
  | listReportsC
  | createReportC
  | getReportC
  | getReportDocumentC
  | downloadC
deriving DecidableEq

/-- A thrown upstream error: a 429 on report creation carrying the numeric
value of the retry-after header (none when absent or non-numeric, in which
case `Number(... ?? 0)` is not positive), or any other transport error. -/
inductive UpError
  | rateLimited (retryAfter : Option Int)
  | transient

/-- One element of the `listReports` response payload. -/
structure ReportInfo where
  reportId : Option String
  reportDocumentId : Option String
  createdTime : Option String
  processingStatus : Option String

/-- The `getReport` response payload. -/
structure ReportPayload where
  processingStatus : Option String
  reportDocumentId : Option String

/-- The `getReportDocument` response payload. -/
structure ReportDocument where
  url : Option String
  compressionAlgorithm : Option String

/-- The upstream world for one orchestrator run: what every call would
return (poll responses indexed by attempt number, documents by id,
downloads by url).  `downloadResp` is the decoded (and, when the document
declares gzip, decompressed) report text. -/
structure Env where
  listReportsResp : Except UpError (List ReportInfo)
  getReportReuse : Nat → Except UpError (Option ReportPayload)
  getReportMain : Nat → Except UpError (Option ReportPayload)
  getReportDocumentResp : String → Except UpError (Option ReportDocument)
  downloadResp : String → Except UpError String
  createResp : Except UpError String

/-- Outcome of a sub-computation: a returned value, or a thrown error that
the top-level catch of `refreshPlanningReport` will absorb. -/
inductive RunOut (α : Type)
  | ok (val : α)
  | thrown

/-- State, upstream calls made so far, and outcome of a sub-computation. -/
structure RunStep (α : Type) where
  state : ServerState
  calls : List UpCall
  out : RunOut α

/-- `report?.processingStatus`. -/
def repStatus (rep : Option ReportPayload) : Option String :=
  match rep with
  | some r => r.processingStatus
  | none => none

/-- `report?.reportDocumentId`. -/
def repDocId (rep : Option ReportPayload) : Option String :=
  match rep with
  | some r => r.reportDocumentId
  | none => none

/-- JS truthiness of `document?.url`. -/
def docUrl (doc : Option ReportDocument) : Option String :=
  match doc with
  | none => none
  | some d =>
    match d.url with
    | none => none
    | some u => if u = "" then none else some u

/-- Cooldown backoff from a 429: `retryAfter > 0 ? retryAfter * 1000 :
REPORT_COOLDOWN_MS`. -/
def backoffOf (retryAfter : Option Int) : Int :=
  match retryAfter with
  | some r => if 0 < r then r * 1000 else REPORT_COOLDOWN_MS
  | none => REPORT_COOLDOWN_MS

/-- `createReportOnce` from index.ts: try to create the report; on a 429 set
the region cooldown to now + backoff (plain `Map.set` overwrite) and return
the empty report id; rethrow anything else. -/
def createReportOnce (env : Env) (st : ServerState) (store : StoreKey) (now : Int) :
    RunStep String :=
  match env.createResp with
  | Except.ok rid => ⟨st, [UpCall.createReportC], RunOut.ok rid⟩
  | Except.error (UpError.rateLimited ra) =>
    ⟨{ st with reportCooldownUntil := setStore st.reportCooldownUntil store (now + backoffOf ra) },
      [UpCall.createReportC], RunOut.ok ""⟩
  | Except.error UpError.transient => ⟨st, [UpCall.createReportC], RunOut.thrown⟩

/-- `.filter(r => r.createdTime).sort(byCreatedTimeDesc)[0]`: the report with
the lexicographically greatest created time, keeping the first of equals
(the sort is stable); `localeCompare` on ISO-8601 strings is modelled as
code-point order. -/
def pickLatest (reports : List ReportInfo) : Option ReportInfo :=
  let withTime := reports.filter fun r => optTruthy r.createdTime
  withTime.foldl
    (fun best r =>
      match best with
      | none => some r
      | some b => if b.createdTime.getD "" < r.createdTime.getD "" then some r else best)
    none

/-- The bounded poll loop inside `loadLatestPlanningReport` (index.ts lines
637-651): on DONE with a document id, fetch the document, download, parse
and cache, returning true; on CANCELLED or FATAL return false; otherwise
sleep and retry; exhausting the attempts falls through to `return true`. -/
def pollReuse (env : Env) (store : StoreKey) (now : Int) :
    Nat → Nat → ServerState → List UpCall → RunStep Bool
  | 0, _, st, calls => ⟨st, calls, RunOut.ok true⟩
  | n + 1, i, st, calls =>
    match env.getReportReuse i with
    | Except.error _ => ⟨st, calls ++ [UpCall.getReportC], RunOut.thrown⟩
    | Except.ok rep =>
      let calls1 := calls ++ [UpCall.getReportC]
      if (repStatus rep == some "DONE") && optTruthy (repDocId rep) then
        match env.getReportDocumentResp ((repDocId rep).getD "") with
        | Except.error _ => ⟨st, calls1 ++ [UpCall.getReportDocumentC], RunOut.thrown⟩
        | Except.ok doc =>
          let calls2 := calls1 ++ [UpCall.getReportDocumentC]
          match docUrl doc with
          | none => ⟨st, calls2, RunOut.ok true⟩
          | some u =>
            match env.downloadResp u with
            | Except.error _ => ⟨st, calls2 ++ [UpCall.downloadC], RunOut.thrown⟩
            | Except.ok content =>
              ⟨{ st with planningCache := setStore st.planningCache store (buildPlanningCache content now) },
                calls2 ++ [UpCall.downloadC], RunOut.ok true⟩
      else if (repStatus rep == some "CANCELLED") || (repStatus rep == some "FATAL") then
        ⟨st, calls1, RunOut.ok false⟩
      else
        pollReuse env store now n (i + 1) st calls1

/-- `loadLatestPlanningReport` from index.ts: list recent reports, pick the
latest; a still-processing one is polled (`pollReuse`), a DONE one is
downloaded and cached directly; returns whether an existing report was
reused. -/
def loadLatest (env : Env) (store : StoreKey) (now : Int) (st : ServerState) : RunStep Bool :=
  match env.listReportsResp with
  | Except.error _ => ⟨st, [UpCall.listReportsC], RunOut.thrown⟩
  | Except.ok reports =>
    let calls := [UpCall.listReportsC]
    if reports.isEmpty then ⟨st, calls, RunOut.ok false⟩
    else
      match pickLatest reports with
      | none => ⟨st, calls, RunOut.ok false⟩
      | some latest =>
        if optTruthy latest.processingStatus && !(latest.processingStatus == some "DONE") then
          if optTruthy latest.reportId then
            pollReuse env store now 12 0 st calls
          else ⟨st, calls, RunOut.ok true⟩
        else
          if !(optTruthy latest.reportDocumentId) then ⟨st, calls, RunOut.ok false⟩
          else
            match env.getReportDocumentResp (latest.reportDocumentId.getD "") with
            | Except.error _ => ⟨st, calls ++ [UpCall.getReportDocumentC], RunOut.thrown⟩
            | Except.ok doc =>
              let calls2 := calls ++ [UpCall.getReportDocumentC]
              match docUrl doc with
              | none => ⟨st, calls2, RunOut.ok false⟩
              | some u =>
                match env.downloadResp u with
                | Except.error _ => ⟨st, calls2 ++ [UpCall.downloadC], RunOut.thrown⟩
                | Except.ok content =>
                  ⟨{ st with planningCache := setStore st.planningCache store (buildPlanningCache content now) },
                    calls2 ++ [UpCall.downloadC], RunOut.ok true⟩

/-- The main poll loop of `refreshPlanningReport` (12 attempts): returns the
report document id, empty when the job was cancelled, fatal or the attempts
ran out. -/
def pollMain (env : Env) : Nat → Nat → List UpCall → List UpCall × RunOut String
  | 0, _, calls => (calls, RunOut.ok "")
  | n + 1, i, calls =>
    match env.getReportMain i with
    | Except.error _ => (calls ++ [UpCall.getReportC], RunOut.thrown)
    | Except.ok rep =>
      let calls1 := calls ++ [UpCall.getReportC]
      if (repStatus rep == some "DONE") && optTruthy (repDocId rep) then
        (calls1, RunOut.ok ((repDocId rep).getD ""))
      else if (repStatus rep == some "CANCELLED") || (repStatus rep == some "FATAL") then
        (calls1, RunOut.ok "")
      else pollMain env n (i + 1) calls1

/-- `refreshPlanningReport` from index.ts: short-circuit on missing
credentials or a fresh cache; try to reuse an existing report; respect the
cooldown gate; create, poll, download, parse and cache, with every thrown
error absorbed by the top-level catch.  Returns the final state and the
upstream calls performed. -/
def refreshPlanningReport (env : Env) (hasCreds : Bool) (st : ServerState)
    (store : StoreKey) (now : Int) : ServerState × List UpCall :=
  if hasCreds then
    match getPlanningCache st.planningCache store now with
    | some _ => (st, [])
    | none =>
      match loadLatest env store now st with
      | ⟨st1, calls, RunOut.thrown⟩ => (st1, calls)
      | ⟨st1, calls, RunOut.ok true⟩ => (st1, calls)
      | ⟨st1, calls, RunOut.ok false⟩ =>
        if now < (st1.reportCooldownUntil store).getD 0 then (st1, calls)
        else
          match createReportOnce env st1 store now with
          | ⟨st2, ccalls, RunOut.thrown⟩ => (st2, calls ++ ccalls)
          | ⟨st2, ccalls, RunOut.ok reportId⟩ =>
            let calls1 := calls ++ ccalls
            if reportId = "" then (st2, calls1)
            else
              match pollMain env 12 0 calls1 with
              | (calls2, RunOut.thrown) => (st2, calls2)
              | (calls2, RunOut.ok docId) =>
                if docId = "" then (st2, calls2)
                else
                  match env.getReportDocumentResp docId with
                  | Except.error _ => (st2, calls2 ++ [UpCall.getReportDocumentC])
                  | Except.ok doc =>
                    let calls3 := calls2 ++ [UpCall.getReportDocumentC]
                    match docUrl doc with
                    | none => (st2, calls3)
                    | some u =>
                      match env.downloadResp u with
                      | Except.error _ => (st2, calls3 ++ [UpCall.downloadC])
                      | Except.ok content =>
                        ({ st2 with planningCache := setStore st2.planningCache store (buildPlanningCache content now) },
                          calls3 ++ [UpCall.downloadC])
  else (st, [])

/-- `REPORT_STORES` from index.ts. -/
def REPORT_STORES : List StoreKey := [StoreKey.US]

/-- One row of the `/api/reports/planning/status` response; the ISO-8601
rendering of the two timestamps is kept as epoch milliseconds. -/
structure PlanningStatusEntry where
  store : StoreKey
  cached : Bool
  cachedAt : Option Int
  cooldownUntil : Option Int
deriving DecidableEq

/-- The status computed per store by the `/api/reports/planning/status`
handler: it reads the raw maps, with no freshness check. -/
def planningStatusEntry (st : ServerState) (store : StoreKey) : PlanningStatusEntry :=
  let cached := st.planningCache store
  let cooldownUntil := (st.reportCooldownUntil store).getD 0
  { store := store
    cached := cached.isSome
    cachedAt := cached.map fun c => c.fetchedAt
    cooldownUntil := if cooldownUntil = 0 then none else some cooldownUntil }

/-- The `/api/reports/planning/status` response body. -/
def planningStatus (st : ServerState) : List PlanningStatusEntry :=
  REPORT_STORES.map (planningStatusEntry st)

/-- An upstream world whose report-creation call is rejected with a 429
carrying the retry-after hint `ra` (seconds); the other calls are benign. -/
def envRL (ra : Int) : Env :=
  { listReportsResp := Except.ok []
    getReportReuse := fun _ => Except.ok none
    getReportMain := fun _ => Except.ok none
    getReportDocumentResp := fun _ => Except.ok none
    downloadResp := fun _ => Except.ok ""
    createResp := Except.error (UpError.rateLimited (some ra)) }

/-- Server state with empty caches and no cooldowns. -/
def emptyState : ServerState :=
  { planningCache := fun _ => none, reportCooldownUntil := fun _ => none }

/-- Server state already holding a 5-minute cooldown deadline (epoch 300000). -/
def priorCooldownState : ServerState :=
  { planningCache := fun _ => none, reportCooldownUntil := fun _ => some 300000 }

/-- Server state holding a planning cache entry fetched at epoch 0. -/
def freshState : ServerState :=
  { planningCache := fun _ => some ⟨0, [], 0⟩, reportCooldownUntil := fun _ => none }

/-- Server state holding a planning cache entry fetched at epoch 0 and a
cooldown deadline of epoch 5. -/
def staleState : ServerState :=
  { planningCache := fun _ => some ⟨0, [], 0⟩, reportCooldownUntil := fun _ => some 5 }

/-- Zeroed review statistics. -/
def rsZero : ReviewStats :=
  { today := 0, last7Days := 0, last30Days := 0, lastRunAt := none }

/-- A planning record with nonzero storage fees. -/
def cexPlanningItem : PlanningItem :=
  { sku := "SKU1", title := "T", available := 1, inbound := 0, reserved := 0, sales7d := 0,
    sellThrough := 0, age90plusUnits := 0, estimatedLtsf := 2, estimatedStorage := 3 }

/-- A planning cache entry holding `cexPlanningItem` with aging risk 5. -/
def cexPlanningEntry : PlanningCache :=
  { fetchedAt := 0, items := [("SKU1", cexPlanningItem)], agingRisk := 5 }

/-- A live item with sku S and zero on-hand quantity. -/
def liveZero : LiveItem :=
  { sku := "S", title := "Live", onHand := 0, reserved := 3, inbound := 0, sales7d := 0,
    age90plus := false, stranded := 0, suppressed := 0, sellThrough := 0, margin := 0 }

/-- A planning record for sku S with available = 42. -/
def plan42 : PlanningItem :=
  { sku := "S", title := "Plan", available := 42, inbound := 5, reserved := 0, sales7d := 9,
    sellThrough := 1/2, age90plusUnits := 2, estimatedLtsf := 0, estimatedStorage := 0 }

/-- A planning cache entry holding exactly `plan42`. -/
def pc42 : PlanningCache := { fetchedAt := 0, items := [("S", plan42)], agingRisk := 0 }

/-- A parsed row with sku S and storage cost 10. -/
def dupRow1 : Row := [("sku", "S"), ("estimated-storage-cost-next-month", "10")]

/-- A second parsed row with the same sku S and storage cost 20. -/
def dupRow2 : Row := [("sku", "S"), ("estimated-storage-cost-next-month", "20")]

/-- Evaluation helper: `parseNumber` on a non-empty string whose cleaned form
has the given digit layout. -/
lemma parseNumber_eval (v : String) (b : Bool) (m l : Nat) (hv : ¬(v = ""))
    (h : jsNumParts (cleanNumeric v) = some (b, m, l)) :
    parseNumber (some v) = (if b then -(m : ℚ) else (m : ℚ)) / 10 ^ l := by
  simp [parseNumber, jsNumOfCleaned, h, hv]

/-- The aging fold with an arbitrary accumulator equals the accumulator plus
the sum over the kept columns. -/
lemma age90_foldl (P : String × String → Bool)
    (hP : ∀ kv, P kv = (strStartsWith kv.1 "inv-age-" &&
      !(jsIncludes kv.1 "0-to-90" || jsIncludes kv.1 "0-to-30" ||
        jsIncludes kv.1 "31-to-60" || jsIncludes kv.1 "61-to-90"))) :
    ∀ (row : Row) (a : ℚ),
    row.foldl
      (fun total kv =>
        if !(strStartsWith kv.1 "inv-age-") then total
        else if jsIncludes kv.1 "0-to-90" || jsIncludes kv.1 "0-to-30" ||
            jsIncludes kv.1 "31-to-60" || jsIncludes kv.1 "61-to-90" then total
        else total + parseNumber (some kv.2)) a
      = a + ((row.filter P).map fun kv => parseNumber (some kv.2)).sum := by
  intro row
  induction row with
  | nil => intro a; simp
  | cons kv rest ih =>
    intro a
    simp only [List.foldl_cons, List.filter_cons, hP]
    cases hs : strStartsWith kv.1 "inv-age-" with
    | false => simpa using ih a
    | true =>
      cases he : (jsIncludes kv.1 "0-to-90" || jsIncludes kv.1 "0-to-30" ||
          jsIncludes kv.1 "31-to-60" || jsIncludes kv.1 "61-to-90") with
      | true => simpa using ih a
      | false =>
        simp only [Bool.not_true, if_false, Bool.true_and, Bool.not_false, if_true,
          Bool.false_eq_true, List.map_cons, List.sum_cons]
        rw [ih (a + parseNumber (some kv.2))]
        ring

/-- The aging-risk component of the parse fold equals the accumulator plus
the per-row fee sums over the rows with a non-empty sku. -/
lemma buildPlanning_risk : ∀ (rows : List Row) (acc : List (String × PlanningItem) × ℚ),
    (rows.foldl buildPlanningStep acc).2 =
    acc.2 + ((rows.filter fun r => !(rowSku r = "")).map
      fun r => (planningFieldsOfRow r).estimatedLtsf + (planningFieldsOfRow r).estimatedStorage).sum := by
  intro rows
  induction rows with
  | nil => intro acc; simp
  | cons r rest ih =>
    intro acc
    by_cases h : rowSku r = ""
    · simp only [List.foldl_cons, List.filter_cons, h]
      simpa [buildPlanningStep, h] using ih acc
    · simp only [List.foldl_cons, List.filter_cons, h]
      rw [show buildPlanningStep acc r = (setAssoc acc.1 (rowSku r) (planningFieldsOfRow r),
        acc.2 + ((planningFieldsOfRow r).estimatedLtsf + (planningFieldsOfRow r).estimatedStorage))
        from by simp [buildPlanningStep, h]]
      rw [ih]
      simp
      ring

/-- Deleting one key from an association list does not change the lookup of
another key. -/
lemma lookupAssoc_deleteAssoc_ne {α : Type} (m : List (String × α)) (k key : String)
    (h : ¬(key = k)) : lookupAssoc (deleteAssoc m k) key = lookupAssoc m key := by
  induction m with
  | nil => rfl
  | cons kv rest ih =>
    obtain ⟨k1, w1⟩ := kv
    simp only [deleteAssoc, lookupAssoc]
    by_cases hk : k1 = k
    · rw [if_pos hk]
      have hk1key : ¬(k1 = key) := fun hh => h (hh ▸ hk)
      rw [if_neg hk1key]
    · rw [if_neg hk]
      simp only [lookupAssoc]
      by_cases hkey : k1 = key
      · rw [if_pos hkey, if_pos hkey]
      · rw [if_neg hkey, if_neg hkey, ih]

/-- The mapping pass of the merge preserves the length of the live list. -/
lemma mergePhase1_length (l : List LiveItem) : ∀ m, (mergePhase1 m l).1.length = l.length := by
  induction l with
  | nil => intro m; rfl
  | cons item rest ih =>
    intro m
    cases hx : lookupAssoc m item.sku <;> simp [mergePhase1, hx, ih]

/-- A live item whose sku no earlier live item shares and that matches the
working copy is mapped to the planning-merged item, at its own position. -/
lemma mergePhase1_matched : ∀ (pre : List LiveItem) (m : List (String × PlanningItem))
    (item : LiveItem) (post : List LiveItem) (p : PlanningItem),
    lookupAssoc m item.sku = some p → (∀ x ∈ pre, ¬(x.sku = item.sku)) →
    (mergePhase1 m (pre ++ item :: post)).1[pre.length]? = some (applyPlanning item p) := by
  intro pre
  induction pre with
  | nil =>
    intro m item post p hm _
    simp [mergePhase1, hm]
  | cons x pre ih =>
    intro m item post p hm hne
    have hxne : ¬(item.sku = x.sku) := fun hh => (hne x (by simp)) hh.symm
    simp only [List.cons_append, mergePhase1, List.length_cons]
    cases hx : lookupAssoc m x.sku with
    | some q =>
      simp only [List.getElem?_cons_succ]
      exact ih (deleteAssoc m x.sku) item post p
        (by rw [lookupAssoc_deleteAssoc_ne _ _ _ hxne]; exact hm)
        (fun y hy => hne y (List.mem_cons_of_mem _ hy))
    | none =>
      simp only [List.getElem?_cons_succ]
      exact ih m item post p hm (fun y hy => hne y (List.mem_cons_of_mem _ hy))

/-- C1 counterexample: blocking the US region via two rate-limited creation
calls, first with a 300-second (5-minute) retry-after hint and then with a
120-second (2-minute) one, both at time 0, leaves the 2-minute deadline
120000 in effect, not the maximum of the two deadlines (300000). -/
theorem cooldown_overwrite_cex :
    ((createReportOnce (envRL 120)
        (createReportOnce (envRL 300) emptyState StoreKey.US 0).state StoreKey.US 0).state.reportCooldownUntil
      StoreKey.US = some 120000) ∧
    ¬((createReportOnce (envRL 120)
        (createReportOnce (envRL 300) emptyState StoreKey.US 0).state StoreKey.US 0).state.reportCooldownUntil
      StoreKey.US = some (max 300000 120000)) := by
  constructor
  · decide
  · decide

/-- C1 (amended): a rate-limited report creation overwrites the cooldown
deadline unconditionally with now + backoff, whatever deadline the map held
before — the deadline is a plain overwrite, not the maximum, so a later
shorter cooldown moves it backward. -/
theorem cooldown_rate_limit_overwrites (env : Env) (st : ServerState) (store : StoreKey)
    (now : Int) (ra : Option Int)
    (h : env.createResp = Except.error (UpError.rateLimited ra)) :
    (createReportOnce env st store now).state.reportCooldownUntil store = some (now + backoffOf ra) ∧
    (createReportOnce env st store now).out = RunOut.ok "" := by
  unfold createReportOnce
  rw [h]
  simp [setStore]

/-- C1 witness: a 120-second rate limit at time 0, against a state already
holding the 5-minute deadline 300000, sets the deadline to 0 + 120000. -/
theorem cooldown_rate_limit_overwrites_witness :
    (createReportOnce (envRL 120) priorCooldownState StoreKey.US 0).state.reportCooldownUntil StoreKey.US
      = some (0 + backoffOf (some 120)) ∧
    (createReportOnce (envRL 120) priorCooldownState StoreKey.US 0).out = RunOut.ok "" :=
  cooldown_rate_limit_overwrites (envRL 120) priorCooldownState StoreKey.US 0 (some 120) rfl

/-- C2 counterexample: with a fresh, non-empty planning cache for the US
region, a thrown live-inventory call makes the snapshot return the static
fallback — empty inventory and zero aging risk — so the cached planning
data (whose entry is fresh and non-empty, with nonzero aging risk) is not
served to the caller. -/
theorem snapshot_failure_cex :
    (fetchInventorySnapshot StoreKey.US true rsZero FetchResult.fail (FetchResult.ok [])
      (fun _ => some cexPlanningEntry) (fun _ => none) 1000).1.inventory = [] ∧
    (fetchInventorySnapshot StoreKey.US true rsZero FetchResult.fail (FetchResult.ok [])
      (fun _ => some cexPlanningEntry) (fun _ => none) 1000).1.agingRisk = 0 ∧
    getPlanningCache (fun _ => some cexPlanningEntry) StoreKey.US 1000 = some cexPlanningEntry ∧
    ¬(cexPlanningEntry.items = []) ∧
    ¬(cexPlanningEntry.agingRisk = 0) := by
  refine ⟨rfl, rfl, rfl, by simp [cexPlanningEntry], by norm_num [cexPlanningEntry]⟩

/-- C2 (amended): when the live inventory call throws, the snapshot fetch
absorbs the failure and serves the static fallback (empty inventory and
shipments, zero metrics); the planning and shipments caches are left
untouched, to be served by later successful fetches, but the failing call
itself does not serve them. -/
theorem snapshot_failure_returns_fallback (store : StoreKey) (rs : ReviewStats)
    (shipResp : FetchResult (List Shipment)) (pc : StoreMap PlanningCache)
    (sc : StoreMap ShipmentsCacheEntry) (now : Int) :
    fetchInventorySnapshot store true rs FetchResult.fail shipResp pc sc now =
      (fallbackStore store rs, sc) := rfl

/-- C3 counterexample: an entry stored at time 0 and read exactly at the TTL
is still returned by the planning cache getter, although its age is not
strictly less than the TTL — the claim that a value is returned only if
now - fetchedAt < ttl fails at the boundary. -/
theorem ttl_boundary_cex :
    getPlanningCache (fun _ => some ⟨0, [], 0⟩) StoreKey.US REPORT_CACHE_TTL_MS
      = some ⟨0, [], 0⟩ ∧
    ¬(REPORT_CACHE_TTL_MS - (⟨0, [], 0⟩ : PlanningCache).fetchedAt < REPORT_CACHE_TTL_MS) := by
  constructor
  · rfl
  · decide

/-- C3 (amended): for every store key, both the planning and the shipments
cache getter return the stored entry exactly when now - fetchedAt ≤ ttl
(at an age of exactly ttl the value is still served; once the age strictly
exceeds ttl the entry is treated as absent), the getter does not evict, and
a set overwrites the slot unconditionally. -/
theorem ttl_cache_get_iff (mp : StoreMap PlanningCache) (ms : StoreMap ShipmentsCacheEntry)
    (store : StoreKey) (now : Int) (e : PlanningCache) (s : ShipmentsCacheEntry)
    (v : PlanningCache) :
    (getPlanningCache mp store now = some e ↔
      mp store = some e ∧ now - e.fetchedAt ≤ REPORT_CACHE_TTL_MS) ∧
    (getShipmentsCache ms store now = some s ↔
      ms store = some s ∧ now - s.fetchedAt ≤ SHIPMENTS_CACHE_TTL_MS) ∧
    setStore mp store v store = some v := by
  refine ⟨?_, ?_, by simp [setStore]⟩
  · constructor
    · intro hg
      cases hmp : mp store with
      | none => simp [getPlanningCache, hmp] at hg
      | some c =>
        simp only [getPlanningCache, hmp] at hg
        split at hg
        · exact absurd hg (by simp)
        · obtain rfl := Option.some.inj hg
          exact ⟨rfl, by omega⟩
    · rintro ⟨hmp, hle⟩
      simp only [getPlanningCache, hmp]
      rw [if_neg (by omega)]
  · constructor
    · intro hg
      cases hms : ms store with
      | none => simp [getShipmentsCache, hms] at hg
      | some c =>
        simp only [getShipmentsCache, hms] at hg
        split at hg
        · exact absurd hg (by simp)
        · obtain rfl := Option.some.inj hg
          exact ⟨rfl, by omega⟩
    · rintro ⟨hms, hle⟩
      simp only [getShipmentsCache, hms]
      rw [if_neg (by omega)]

/-- C4 counterexample: with planning cache holding a record for sku S with
available = 42, merging a live list that contains two items of sku S and
on-hand 0 leaves the second item with on-hand 0, not 42, although its sku
matches a record of the fresh planning cache — the first match consumed the
record from the working copy. -/
theorem merge_duplicate_sku_cex :
    ((mergeWithPlanning [liveZero, liveZero] pc42)[(1 : Nat)]?.map fun it => it.onHand)
      = some 0 ∧
    ¬(((mergeWithPlanning [liveZero, liveZero] pc42)[(1 : Nat)]?.map fun it => it.onHand)
      = some 42) ∧
    lookupAssoc pc42.items liveZero.sku = some plan42 ∧
    liveZero.onHand = 0 ∧
    plan42.available = 42 := by
  refine ⟨rfl, ?_, rfl, rfl, rfl⟩
  have h : ((mergeWithPlanning [liveZero, liveZero] pc42)[(1 : Nat)]?.map fun it => it.onHand)
      = some 0 := rfl
  rw [h]
  simp only [Option.some.injEq]
  norm_num

/-- C4 (amended): for every live item whose sku matches a planning record
and that no earlier live item shares a sku with, the merge keeps it at its
position with: title overwritten only if the planning title is non-empty;
onHand, reserved and inbound overwritten only if the live value is exactly
zero; and sales7d, age90plus (true iff age90plusUnits > 0) and sellThrough
always taken from the planning record. -/
theorem merge_matched_item_fields (pre post : List LiveItem) (item : LiveItem)
    (planning : PlanningCache) (p : PlanningItem)
    (hmatch : lookupAssoc planning.items item.sku = some p)
    (hfirst : ∀ x ∈ pre, ¬(x.sku = item.sku)) :
    (mergeWithPlanning (pre ++ item :: post) planning)[pre.length]? = some (applyPlanning item p) ∧
    (applyPlanning item p).title = (if p.title = "" then item.title else p.title) ∧
    (applyPlanning item p).onHand = (if item.onHand = 0 then p.available else item.onHand) ∧
    (applyPlanning item p).reserved = (if item.reserved = 0 then p.reserved else item.reserved) ∧
    (applyPlanning item p).inbound = (if item.inbound = 0 then p.inbound else item.inbound) ∧
    (applyPlanning item p).sales7d = p.sales7d ∧
    ((applyPlanning item p).age90plus = true ↔ 0 < p.age90plusUnits) ∧
    (applyPlanning item p).sellThrough = p.sellThrough := by
  refine ⟨?_, rfl, rfl, rfl, rfl, rfl, ?_, rfl⟩
  · show ((mergePhase1 planning.items (pre ++ item :: post)).1 ++
      (mergePhase1 planning.items (pre ++ item :: post)).2.map
        fun kv => syntheticOfPlanning kv.2)[pre.length]? = some (applyPlanning item p)
    have hlen : pre.length < (mergePhase1 planning.items (pre ++ item :: post)).1.length := by
      rw [mergePhase1_length]
      simp only [List.length_append, List.length_cons]
      omega
    rw [List.getElem?_append_left hlen]
    exact mergePhase1_matched pre planning.items item post p hmatch hfirst
  · simp [applyPlanning]

/-- C4 witness: a single live item of sku S with on-hand 0, merged against
the planning record with available = 42, yields the planning-merged item at
position 0 with the stated field behavior. -/
theorem merge_matched_item_fields_witness :
    (mergeWithPlanning ([] ++ liveZero :: []) pc42)[([] : List LiveItem).length]?
      = some (applyPlanning liveZero plan42) ∧
    (applyPlanning liveZero plan42).title
      = (if plan42.title = "" then liveZero.title else plan42.title) ∧
    (applyPlanning liveZero plan42).onHand
      = (if liveZero.onHand = 0 then plan42.available else liveZero.onHand) ∧
    (applyPlanning liveZero plan42).reserved
      = (if liveZero.reserved = 0 then plan42.reserved else liveZero.reserved) ∧
    (applyPlanning liveZero plan42).inbound
      = (if liveZero.inbound = 0 then plan42.inbound else liveZero.inbound) ∧
    (applyPlanning liveZero plan42).sales7d = plan42.sales7d ∧
    ((applyPlanning liveZero plan42).age90plus = true ↔ 0 < plan42.age90plusUnits) ∧
    (applyPlanning liveZero plan42).sellThrough = plan42.sellThrough :=
  merge_matched_item_fields [] [] liveZero pc42 plan42 rfl (by simp)

/-- C5: for every region whose planning cache entry is younger than the
6-hour TTL, running the report-job orchestrator performs zero upstream calls
and returns the server state unchanged — the cache entry, its fetchedAt
timestamp included, is exactly as before. -/
theorem refresh_fresh_cache_noop (env : Env) (hasCreds : Bool) (st : ServerState)
    (store : StoreKey) (now : Int) (e : PlanningCache)
    (hcache : st.planningCache store = some e)
    (hfresh : now - e.fetchedAt < REPORT_CACHE_TTL_MS) :
    refreshPlanningReport env hasCreds st store now = (st, []) := by
  have hget : getPlanningCache st.planningCache store now = some e := by
    simp only [getPlanningCache, hcache]
    rw [if_neg (by omega)]
  cases hasCreds with
  | false => rfl
  | true =>
    unfold refreshPlanningReport
    simp [hget]

/-- C5 witness: with a cache entry fetched at epoch 0 and the clock at 1000,
a run of the orchestrator in a rate-limiting upstream world makes no call
and leaves the state untouched. -/
theorem refresh_fresh_cache_noop_witness :
    refreshPlanningReport (envRL 300) true freshState StoreKey.US 1000 = (freshState, []) :=
  refresh_fresh_cache_noop (envRL 300) true freshState StoreKey.US 1000 ⟨0, [], 0⟩ rfl (by decide)

/-- C6: for every parsed record, computeAge90Plus equals the sum of the
parsed values of every column whose normalized name starts with inv-age-
except those containing the bucket names 0-to-90, 0-to-30, 31-to-60 and
61-to-90; in particular a record with inv-age-0-to-90-days=5,
inv-age-91-to-180-days=7 and inv-age-181-to-365-days=3 yields 10. -/
theorem computeAge90Plus_spec :
    (∀ row : Row, computeAge90Plus row =
      ((row.filter fun kv => strStartsWith kv.1 "inv-age-" &&
          !(jsIncludes kv.1 "0-to-90" || jsIncludes kv.1 "0-to-30" ||
            jsIncludes kv.1 "31-to-60" || jsIncludes kv.1 "61-to-90")).map
        fun kv => parseNumber (some kv.2)).sum) ∧
    computeAge90Plus [("inv-age-0-to-90-days", "5"), ("inv-age-91-to-180-days", "7"),
      ("inv-age-181-to-365-days", "3")] = 10 := by
  have hgen : ∀ row : Row, computeAge90Plus row =
      ((row.filter fun kv => strStartsWith kv.1 "inv-age-" &&
          !(jsIncludes kv.1 "0-to-90" || jsIncludes kv.1 "0-to-30" ||
            jsIncludes kv.1 "31-to-60" || jsIncludes kv.1 "61-to-90")).map
        fun kv => parseNumber (some kv.2)).sum := by
    intro row
    have := age90_foldl _ (fun kv => rfl) row 0
    simpa [computeAge90Plus] using this
  refine ⟨hgen, ?_⟩
  rw [hgen]
  have h7 : parseNumber (some "7") = 7 := by
    rw [parseNumber_eval "7" false 7 0 (by decide) (by decide)]; norm_num
  have h3 : parseNumber (some "3") = 3 := by
    rw [parseNumber_eval "3" false 3 0 (by decide) (by decide)]; norm_num
  have hfilter : ([("inv-age-0-to-90-days", "5"), ("inv-age-91-to-180-days", "7"),
      ("inv-age-181-to-365-days", "3")] : Row).filter (fun kv => strStartsWith kv.1 "inv-age-" &&
          !(jsIncludes kv.1 "0-to-90" || jsIncludes kv.1 "0-to-30" ||
            jsIncludes kv.1 "31-to-60" || jsIncludes kv.1 "61-to-90"))
      = [("inv-age-91-to-180-days", "7"), ("inv-age-181-to-365-days", "3")] := by decide
  rw [hfilter]
  simp [h7, h3]
  norm_num

/-- C7: percent parsing divides by 100 when the raw text contains a percent
sign, divides by 100 when the parsed number exceeds 1, and uses the number
as-is otherwise; "12.5%", "0.125" and "12.5" all parse to 0.125, and the
empty string parses to 0. -/
theorem parsePercent_spec :
    (∀ v : String, parsePercent (some v) =
      if v = "" then 0
      else if jsIncludes v "%" then parseNumber (some v) / 100
      else if 1 < parseNumber (some v) then parseNumber (some v) / 100
      else parseNumber (some v)) ∧
    parsePercent (some "12.5%") = 0.125 ∧
    parsePercent (some "0.125") = 0.125 ∧
    parsePercent (some "12.5") = 0.125 ∧
    parsePercent (some "") = 0 := by
  refine ⟨fun v => rfl, ?_, ?_, ?_, rfl⟩
  · have h1 : parseNumber (some "12.5%") = (125 : ℚ) / 10 ^ 1 := by
      rw [parseNumber_eval "12.5%" false 125 1 (by decide) (by decide)]; norm_num
    simp only [parsePercent, if_neg (show ¬("12.5%" = "") by decide),
      if_pos (show jsIncludes "12.5%" "%" = true by decide), h1]
    norm_num
  · have h1 : parseNumber (some "0.125") = (125 : ℚ) / 10 ^ 3 := by
      rw [parseNumber_eval "0.125" false 125 3 (by decide) (by decide)]; norm_num
    simp only [parsePercent, if_neg (show ¬("0.125" = "") by decide),
      if_neg (show ¬(jsIncludes "0.125" "%" = true) by decide), h1]
    rw [if_neg (by norm_num)]
    norm_num
  · have h1 : parseNumber (some "12.5") = (125 : ℚ) / 10 ^ 1 := by
      rw [parseNumber_eval "12.5" false 125 1 (by decide) (by decide)]; norm_num
    simp only [parsePercent, if_neg (show ¬("12.5" = "") by decide),
      if_neg (show ¬(jsIncludes "12.5" "%" = true) by decide), h1]
    rw [if_pos (by norm_num)]
    norm_num

/-- C8: for every parsed record the extracted sales7d is the parsed
units-shipped-t7 value unless that value is exactly zero, in which case the
parsed sales-shipped-last-7-days value is used instead; a record with
units-shipped-t7 = 0 and sales-shipped-last-7-days = 4 yields 4. -/
theorem sales7d_fallback_spec :
    (∀ row : Row, (planningFieldsOfRow row).sales7d =
      if parseNumber (lookupAssoc row "units-shipped-t7") = 0
      then parseNumber (lookupAssoc row "sales-shipped-last-7-days")
      else parseNumber (lookupAssoc row "units-shipped-t7")) ∧
    (planningFieldsOfRow [("sku", "S"), ("units-shipped-t7", "0"),
      ("sales-shipped-last-7-days", "4")]).sales7d = 4 := by
  have hgen : ∀ row : Row, (planningFieldsOfRow row).sales7d =
      if parseNumber (lookupAssoc row "units-shipped-t7") = 0
      then parseNumber (lookupAssoc row "sales-shipped-last-7-days")
      else parseNumber (lookupAssoc row "units-shipped-t7") := fun row => rfl
  refine ⟨hgen, ?_⟩
  rw [hgen]
  have hl1 : lookupAssoc ([("sku", "S"), ("units-shipped-t7", "0"),
      ("sales-shipped-last-7-days", "4")] : Row) "units-shipped-t7" = some "0" := by decide
  have hl2 : lookupAssoc ([("sku", "S"), ("units-shipped-t7", "0"),
      ("sales-shipped-last-7-days", "4")] : Row) "sales-shipped-last-7-days" = some "4" := by decide
  rw [hl1, hl2]
  have h0 : parseNumber (some "0") = 0 := by
    rw [parseNumber_eval "0" false 0 0 (by decide) (by decide)]; norm_num
  have h4 : parseNumber (some "4") = 4 := by
    rw [parseNumber_eval "4" false 4 0 (by decide) (by decide)]; norm_num
  rw [h0, h4, if_pos rfl]

/-- C9: the cached aging-risk total accumulates the fee sum of every row
with a non-empty sku, duplicates included, while the item map keeps only the
last record per sku; for the two rows of sku S with storage costs 10 and 20,
the aging risk is 30 while the final item map sums to 20, so the total
strictly exceeds the sum over the kept records. -/
theorem agingRisk_counts_duplicates :
    (∀ rows : List Row, (buildPlanning rows).2 =
      ((rows.filter fun r => !(rowSku r = "")).map
        fun r => (planningFieldsOfRow r).estimatedLtsf + (planningFieldsOfRow r).estimatedStorage).sum) ∧
    (buildPlanning [dupRow1, dupRow2]).1 = [("S", planningFieldsOfRow dupRow2)] ∧
    (buildPlanning [dupRow1, dupRow2]).2 = 30 ∧
    (((buildPlanning [dupRow1, dupRow2]).1.map
      fun kv => kv.2.estimatedLtsf + kv.2.estimatedStorage).sum = 20) ∧
    ((20 : ℚ) < 30) := by
  have hgen : ∀ rows : List Row, (buildPlanning rows).2 =
      ((rows.filter fun r => !(rowSku r = "")).map
        fun r => (planningFieldsOfRow r).estimatedLtsf + (planningFieldsOfRow r).estimatedStorage).sum := by
    intro rows
    simpa [buildPlanning] using buildPlanning_risk rows ([], 0)
  have hsku1 : rowSku dupRow1 = "S" := by decide
  have hsku2 : rowSku dupRow2 = "S" := by decide
  have hl1 : (planningFieldsOfRow dupRow1).estimatedLtsf = 0 := by
    show parseNumber (lookupAssoc dupRow1 "estimated-ltsf-next-charge") +
      parseNumber (lookupAssoc dupRow1 "projected-ltsf-11-mo") = 0
    rw [show lookupAssoc dupRow1 "estimated-ltsf-next-charge" = none from by decide,
      show lookupAssoc dupRow1 "projected-ltsf-11-mo" = none from by decide]
    norm_num [parseNumber]
  have hl2 : (planningFieldsOfRow dupRow2).estimatedLtsf = 0 := by
    show parseNumber (lookupAssoc dupRow2 "estimated-ltsf-next-charge") +
      parseNumber (lookupAssoc dupRow2 "projected-ltsf-11-mo") = 0
    rw [show lookupAssoc dupRow2 "estimated-ltsf-next-charge" = none from by decide,
      show lookupAssoc dupRow2 "projected-ltsf-11-mo" = none from by decide]
    norm_num [parseNumber]
  have hs1 : (planningFieldsOfRow dupRow1).estimatedStorage = 10 := by
    show parseNumber (lookupAssoc dupRow1 "estimated-storage-cost-next-month") = 10
    rw [show lookupAssoc dupRow1 "estimated-storage-cost-next-month" = some "10" from by decide]
    rw [parseNumber_eval "10" false 10 0 (by decide) (by decide)]; norm_num
  have hs2 : (planningFieldsOfRow dupRow2).estimatedStorage = 20 := by
    show parseNumber (lookupAssoc dupRow2 "estimated-storage-cost-next-month") = 20
    rw [show lookupAssoc dupRow2 "estimated-storage-cost-next-month" = some "20" from by decide]
    rw [parseNumber_eval "20" false 20 0 (by decide) (by decide)]; norm_num
  refine ⟨hgen, ?_, ?_, ?_, by norm_num⟩
  · show ((List.foldl buildPlanningStep ([], 0) [dupRow1, dupRow2]).1 = _)
    simp only [List.foldl_cons, List.foldl_nil]
    rw [show buildPlanningStep ([], 0) dupRow1 = ([("S", planningFieldsOfRow dupRow1)],
        0 + ((planningFieldsOfRow dupRow1).estimatedLtsf + (planningFieldsOfRow dupRow1).estimatedStorage))
      from by simp [buildPlanningStep, hsku1, setAssoc]]
    simp [buildPlanningStep, hsku2, setAssoc]
  · rw [hgen]
    rw [show ([dupRow1, dupRow2].filter fun r => !(rowSku r = "")) = [dupRow1, dupRow2] from by
      simp [List.filter, hsku1, hsku2]]
    simp [hl1, hl2, hs1, hs2]
    norm_num
  · show ((List.foldl buildPlanningStep ([], 0) [dupRow1, dupRow2]).1.map
      fun kv => kv.2.estimatedLtsf + kv.2.estimatedStorage).sum = 20
    simp only [List.foldl_cons, List.foldl_nil]
    rw [show buildPlanningStep ([], 0) dupRow1 = ([("S", planningFieldsOfRow dupRow1)],
        0 + ((planningFieldsOfRow dupRow1).estimatedLtsf + (planningFieldsOfRow dupRow1).estimatedStorage))
      from by simp [buildPlanningStep, hsku1, setAssoc]]
    rw [show buildPlanningStep ([("S", planningFieldsOfRow dupRow1)],
        0 + ((planningFieldsOfRow dupRow1).estimatedLtsf + (planningFieldsOfRow dupRow1).estimatedStorage)) dupRow2
        = ([("S", planningFieldsOfRow dupRow2)], (0 + ((planningFieldsOfRow dupRow1).estimatedLtsf +
          (planningFieldsOfRow dupRow1).estimatedStorage)) + ((planningFieldsOfRow dupRow2).estimatedLtsf +
          (planningFieldsOfRow dupRow2).estimatedStorage))
      from by simp [buildPlanningStep, hsku2, setAssoc]]
    simp [hl2, hs2]

/-- C10: the planning-status query reads the raw maps without a freshness
check: a cache entry older than the 6-hour TTL — which getPlanningCache,
the getter every other reader goes through, treats as absent — is still
reported as cached = true with its cachedAt timestamp, and a nonzero
cooldown deadline is reported even when it already lies in the past. -/
theorem planning_status_ignores_freshness (st : ServerState) (e : PlanningCache)
    (cd : Int) (now : Int)
    (hcache : st.planningCache StoreKey.US = some e)
    (hstale : now - e.fetchedAt > REPORT_CACHE_TTL_MS)
    (hcd : st.reportCooldownUntil StoreKey.US = some cd)
    (hcdnz : ¬(cd = 0)) (_hpast : cd < now) :
    getPlanningCache st.planningCache StoreKey.US now = none ∧
    planningStatus st = [⟨StoreKey.US, true, some e.fetchedAt, some cd⟩] := by
  constructor
  · simp only [getPlanningCache, hcache]
    rw [if_pos hstale]
  · simp [planningStatus, REPORT_STORES, planningStatusEntry, hcache, hcd, hcdnz]

/-- C10 witness: an entry fetched at epoch 0 read at TTL + 1 with a cooldown
deadline of 5 in the past is reported as cached with both timestamps. -/
theorem planning_status_ignores_freshness_witness :
    getPlanningCache staleState.planningCache StoreKey.US 21600001 = none ∧
    planningStatus staleState = [⟨StoreKey.US, true, some (0 : Int), some 5⟩] :=
  planning_status_ignores_freshness staleState ⟨0, [], 0⟩ 5 21600001 rfl (by decide) rfl
    (by decide) (by decide)
